import Mathlib

/-
  Verification of the AIMangaColorer frontend against its design document.

  Shallow embedding of the TypeScript/JavaScript sources:
  - src/unnamed/part_004          (BatchProcessing.tsx: batch snapshots, polling, cancel)
  - src/electron-app/src/renderer/contexts/TaskContext.tsx (task list, auto-polling)
  - src/electron-app/src/renderer/components/SingleImage.tsx (sliders, download name)
  - src/electron-app/src/renderer/components/ChapterSelectionDialog.tsx and
    src/unnamed/part_003          (chapter-selection toggling)
  - src/unnamed/part_002          (MangaReader.tsx: loadedChapters maintenance)
  - src/gui/renderer.js           (progress event handling)
  plus a spec-modelled embedding of the compose rule of the Python core,
  which is not among the provided sources.
-/

namespace MangaColorer

/-! ### Batch status snapshots (src/unnamed/part_004, `BatchProcessing.tsx`)

The `BatchJob` interface of part_004 lines 12-20: note that `errors` is
`string[]` (a list of bare strings) and `status` is an unconstrained string. -/

structure BatchJobSnapshot where
  id : String
  status : String
  progress : Int
  current : Int
  total : Int
  message : String
  errors : List String
deriving DecidableEq, Repr

/-- The local snapshot `startBatch` installs before the first poll
(part_004, `setCurrentJob` inside `startBatch`): status is the string
`"created"`, counters start at zero, `errors` is empty. -/
def initialSnapshot (batchId : String) (totalImages : Int) : BatchJobSnapshot :=
  { id := batchId, status := "created", progress := 0, current := 0,
    total := totalImages, message := "Starting batch...", errors := [] }

/-- The success path of `cancelBatch` (part_004 lines 167-177):
`setCurrentJob({ ...currentJob, status: 'cancelled' })`. -/
def cancelSnapshot (j : BatchJobSnapshot) : BatchJobSnapshot :=
  { j with status := "cancelled" }

/-- The aggregate statuses of the spec's `BatchJob` status payload enum. -/
def specStatuses : List String :=
  ["queued", "processing", "completed", "completed-with-errors", "failed", "cancelled"]

/-- The four terminal aggregate statuses of the spec. -/
def terminalStatuses : List String :=
  ["completed", "completed-with-errors", "failed", "cancelled"]

/-- One UI-side transition of the tracked snapshot: either the local cancel
rewrite, or replacement by a polled snapshot.  Polled snapshots come from the
backend; their statuses are modelled from the spec's enum (the Python backend
is not among the provided sources). -/
inductive SnapshotStep : BatchJobSnapshot → BatchJobSnapshot → Prop
  | cancel (j : BatchJobSnapshot) : SnapshotStep j (cancelSnapshot j)
  | poll (j s : BatchJobSnapshot) : s.status ∈ specStatuses → SnapshotStep j s

/-- Snapshots the BatchProcessing UI can come to track: the `startBatch`
initial snapshot followed by any number of cancel/poll transitions. -/
inductive SnapshotReachable : BatchJobSnapshot → Prop
  | init (b : String) (t : Int) : SnapshotReachable (initialSnapshot b t)
  | step {j s : BatchJobSnapshot} :
      SnapshotReachable j → SnapshotStep j s → SnapshotReachable s

/-- Guard of the status-polling `useEffect` (part_004 line 37):
`if (!currentJob || currentJob.status === 'completed' ||
currentJob.status === 'failed') return;` — no interval is installed exactly
when this returns `true`; otherwise the effect keeps issuing
`api.getBatchStatus` requests every second. -/
def pollGuardStops : Option BatchJobSnapshot → Bool
  | none => true
  | some j => j.status == "completed" || j.status == "failed"

/-- One polling interval tick (part_004 lines 41-52): the `await
api.getBatchStatus` is wrapped in `try/catch`, so a failed fetch is caught
(logged) and the tracked snapshot is left unchanged; a successful fetch
replaces the snapshot. -/
def pollTick (j : BatchJobSnapshot) (fetch : Except String BatchJobSnapshot) :
    BatchJobSnapshot :=
  match fetch with
  | .ok s => s
  | .error _ => j

/-! ### Task list (TaskContext.tsx) -/

structure TaskMetadata where
  manga_title : Option String
  chapters : Option (List String)
  manga_id : Option String
deriving DecidableEq, Repr

/-- The `Task` interface of TaskContext.tsx.  `status` is a string: the
declared union is `"pending" | "processing" | "completed" | "failed"`, but
polled statuses are installed through an unchecked cast
(`status.status as Task["status"]`), so any string can occur at runtime. -/
structure Task where
  id : String
  type : String
  status : String
  title : String
  progress : Int
  current : Int
  total : Int
  message : String
  createdAt : String
  completedAt : Option String
  error : Option String
  metadata : Option TaskMetadata
deriving DecidableEq, Repr

/-- `Partial<Task>`: a present key may still carry `undefined` for the
optional fields, hence the nested `Option` there. -/
structure TaskUpdate where
  id : Option String := none
  type : Option String := none
  status : Option String := none
  title : Option String := none
  progress : Option Int := none
  current : Option Int := none
  total : Option Int := none
  message : Option String := none
  createdAt : Option String := none
  completedAt : Option (Option String) := none
  error : Option (Option String) := none
  metadata : Option (Option TaskMetadata) := none
deriving DecidableEq, Repr

/-- The spread merge `{ ...task, ...updates }`: every key present in the
update overrides the old field, every absent key keeps it. -/
def mergeTask (t : Task) (u : TaskUpdate) : Task :=
  { id := u.id.getD t.id
    type := u.type.getD t.type
    status := u.status.getD t.status
    title := u.title.getD t.title
    progress := u.progress.getD t.progress
    current := u.current.getD t.current
    total := u.total.getD t.total
    message := u.message.getD t.message
    createdAt := u.createdAt.getD t.createdAt
    completedAt := u.completedAt.getD t.completedAt
    error := u.error.getD t.error
    metadata := u.metadata.getD t.metadata }

/-- `updateTask` (TaskContext.tsx lines 51-55):
`prev.map(task => task.id === id ? { ...task, ...updates } : task)`. -/
def updateTask (i : String) (u : TaskUpdate) (tasks : List Task) : List Task :=
  tasks.map fun t => if t.id == i then mergeTask t u else t

/-- `removeTask` (TaskContext.tsx lines 57-59):
`prev.filter(task => task.id !== id)`. -/
def removeTask (i : String) (tasks : List Task) : List Task :=
  tasks.filter fun t => !(t.id == i)

/-- The auto-polling filter (TaskContext.tsx lines 64-66): only tasks whose
status is `"pending"` or `"processing"` are polled each tick. -/
def isActiveTask (t : Task) : Bool :=
  t.status == "pending" || t.status == "processing"

/-! ### Colorization settings sliders (part_004 and SingleImage.tsx) -/

/-- The values an HTML `<input type="range">` with the given `min`, `max`
and `step` can yield: integers from `lo` to `hi` stepped by `st` from `lo`. -/
def SliderValue (lo hi st v : Nat) : Prop :=
  lo ≤ v ∧ v ≤ hi ∧ (v - lo) % st = 0

/-- The two request settings both UIs keep in component state and submit
verbatim with each colorization request. -/
structure ColorizeSettings where
  inkThreshold : Nat
  maxSide : Nat
deriving DecidableEq, Repr

/-- `useState(80)` / `useState(1024)` in both BatchProcessing (part_004
lines 24-25) and SingleImage.tsx lines 12-13. -/
def initialSettings : ColorizeSettings :=
  { inkThreshold := 80, maxSide := 1024 }

/-- Reachable settings states of the BatchProcessing component: the ink
slider has `min="40" max="120"` (step 1), the resolution slider has
`min="512" max="1536" step="256"` (part_004, settings section). -/
inductive BatchSettingsReachable : ColorizeSettings → Prop
  | init : BatchSettingsReachable initialSettings
  | setInk {s : ColorizeSettings} {v : Nat} :
      BatchSettingsReachable s → SliderValue 40 120 1 v →
      BatchSettingsReachable { s with inkThreshold := v }
  | setMax {s : ColorizeSettings} {v : Nat} :
      BatchSettingsReachable s → SliderValue 512 1536 256 v →
      BatchSettingsReachable { s with maxSide := v }

/-- Reachable settings states of the SingleImage component: ink slider
`min="40" max="120"`, resolution slider `min="512" max="1536" step="128"`
(SingleImage.tsx lines 112-144). -/
inductive SingleSettingsReachable : ColorizeSettings → Prop
  | init : SingleSettingsReachable initialSettings
  | setInk {s : ColorizeSettings} {v : Nat} :
      SingleSettingsReachable s → SliderValue 40 120 1 v →
      SingleSettingsReachable { s with inkThreshold := v }
  | setMax {s : ColorizeSettings} {v : Nat} :
      SingleSettingsReachable s → SliderValue 512 1536 128 v →
      SingleSettingsReachable { s with maxSide := v }

/-! ### Download file name (SingleImage.tsx `handleDownload`)

`link.download = (selectedFile.name).replace(/\.[^\x2f.]+$/, '') + '_colored.png'`.
Filenames are modelled as `List Char`.  The regex matches a suffix consisting
of a dot followed by one or more characters none of which is a slash or a
dot; replacing it by the empty string strips the final extension. -/

/-- Characters the regex class `[^\x2f.]` accepts. -/
def extChar (c : Char) : Bool :=
  !(c == '/') && !(c == '.')

/-- On a reversed filename: consume the (already begun) run of
extension characters, then expect the dot; return what follows it
(the reversed stem), or `none` when the pattern does not match. -/
def revStripAfter (p : Char → Bool) : List Char → Option (List Char)
  | [] => none
  | c :: rest =>
    if c == '.' then some rest
    else if p c then revStripAfter p rest
    else none

/-- On a reversed filename: the regex suffix match requires a nonempty run
of `p`-characters followed by a dot. -/
def revStrip (p : Char → Bool) : List Char → Option (List Char)
  | [] => none
  | c :: rest => if p c then revStripAfter p rest else none

/-- `name.replace(/\.[^\x2f.]+$/, '')`: strip the final dot-extension when
the anchored regex matches, otherwise return the name unchanged. -/
def jsStripExt (f : List Char) : List Char :=
  match revStrip extChar f.reverse with
  | some stem => stem.reverse
  | none => f

/-- The download name `handleDownload` builds (SingleImage.tsx lines 74-82). -/
def downloadName (f : List Char) : List Char :=
  jsStripExt f ++ ("_colored.png".toList)

/-- The spec's wording of the stem: the filename with its final
dot-extension removed, unchanged when it has no (nonempty) extension. -/
def specStem (f : List Char) : List Char :=
  match revStrip (fun c => !(c == '.')) f.reverse with
  | some stem => stem.reverse
  | none => f

/-! ### Progress events (src/gui/renderer.js) -/

/-- The progress event payload `{current, total, filename, percent}`;
`percent` may be absent. -/
structure ProgressEvent where
  current : Int
  total : Int
  filename : String
  percent : Option Int
deriving DecidableEq, Repr

/-- The renderer state `updateProgress` can touch, plus bystander fields it
must not (status line, results visibility, processing flag). -/
structure RendererState where
  statusText : String
  progressText : String
  progressBarWidth : Int
  resultsVisible : Bool
  isProcessing : Bool
deriving DecidableEq, Repr

/-- `data.percent || 0`: JavaScript `||` falls back to `0` when `percent`
is absent (and `0 || 0` is still `0`). -/
def jsOrZero : Option Int → Int
  | none => 0
  | some p => if p = 0 then 0 else p

/-- `updateProgress` (renderer.js lines 229-234): sets the bar width to
`percent%` and the text to `Processing: <filename> (<current>/<total>)`. -/
def updateProgress (d : ProgressEvent) (u : RendererState) : RendererState :=
  { u with
    progressBarWidth := jsOrZero d.percent
    progressText :=
      "Processing: " ++ d.filename ++ " (" ++ toString d.current ++ "/"
        ++ toString d.total ++ ")" }

/-! ### Manga reader loaded chapters (src/unnamed/part_002, MangaReader.tsx)

The reader keeps `loadedChapters : LoadedChapter[]` alongside the full
`chapters : Chapter[]` list; only the chapter ids of the latter matter for
ordering, so it is modelled as `List String`. -/

structure LoadedChapter where
  chapterId : String
  chapterName : String
  pages : List String
  hasColored : Bool
deriving DecidableEq, Repr

/-- `chapters.findIndex(c => c.id === x)`: the index of `x`, `-1` when
absent. -/
def chapterIndex (chapterIds : List String) (x : String) : Int :=
  match chapterIds.findIdx? (· == x) with
  | some i => (i : Int)
  | none => -1

/-- The sort comparator `(a, b) => findIndex(a) - findIndex(b)` orders by
ascending chapter index. -/
def chapterLe (chapterIds : List String) (a b : LoadedChapter) : Bool :=
  decide (chapterIndex chapterIds a.chapterId ≤ chapterIndex chapterIds b.chapterId)

/-- `updated.sort((a, b) => ...)`: a stable sort by chapter index. -/
def sortLoaded (chapterIds : List String) (l : List LoadedChapter) :
    List LoadedChapter :=
  l.mergeSort (chapterLe chapterIds)

/-- The `setLoadedChapters` updater inside `loadChapter` (part_002 lines
219-232): return `prev` unchanged when the chapter is already loaded,
otherwise append the new chapter and sort by chapter order. -/
def loadChapterUpdate (chapterIds : List String) (prev : List LoadedChapter)
    (nc : LoadedChapter) : List LoadedChapter :=
  if prev.any (fun ch => ch.chapterId == nc.chapterId) then prev
  else sortLoaded chapterIds (prev ++ [nc])

/-- `toggleVersion` (part_002 lines 396-409): the list is cleared, then each
previously loaded chapter is re-fetched in order; on success it is appended
with its new pages and the list re-sorted, on a fetch error (`catch`) it is
skipped.  `reload` gives the re-fetched pages, `none` meaning the error
branch. -/
def toggleVersionUpdate (chapterIds : List String) (old : List LoadedChapter)
    (reload : LoadedChapter → Option (List String)) : List LoadedChapter :=
  old.foldl
    (fun prev ch =>
      match reload ch with
      | some ps => sortLoaded chapterIds (prev ++ [{ ch with pages := ps }])
      | none => prev)
    []

/-- No two entries of the loaded list share a chapter id. -/
def DistinctIds (l : List LoadedChapter) : Prop :=
  l.Pairwise (fun a b => a.chapterId ≠ b.chapterId)

/-- The loaded list is ordered by the chapters' position in the chapter
list (the comparator's key is non-decreasing along the list). -/
def OrderedByChapters (chapterIds : List String) (l : List LoadedChapter) : Prop :=
  l.Pairwise (fun a b =>
    chapterIndex chapterIds a.chapterId ≤ chapterIndex chapterIds b.chapterId)

/-! ### Chapter-selection toggling
(ChapterSelectionDialog.tsx lines 26-36 and src/unnamed/part_003 lines
131-139 — both build a copy of the `Set`, then `delete` the id when present
and `add` it when absent.) -/

def toggleChapter (s : Finset String) (c : String) : Finset String :=
  if c ∈ s then s.erase c else insert c s

/-! ### The compose rule (spec §4.5)

Modelled from the spec: the repository's Python colorization core — in
particular `ImageProcessor.compose` — is not among the provided sources
(only the TypeScript/JavaScript UI layers are), so the compose rule is
taken from the design document: per pixel, if the corresponding original
pixel's intensity is at or below `ink_threshold` (original ink), or the
mask marks it protected, keep the original pixel; otherwise keep the
generated pixel.  Pixels are an abstract type with an intensity function;
images are row-major grids (lists of rows). -/

def composePixel {α : Type} (intensity : α → Nat) (thr : Nat)
    (g o : α) (m : Bool) : α :=
  if intensity o ≤ thr ∨ m = true then o else g

def composeRow {α : Type} (intensity : α → Nat) (thr : Nat)
    (g o : List α) (m : List Bool) : List α :=
  List.zipWith (fun gp om => composePixel intensity thr gp om.1 om.2) g (o.zip m)

def compose {α : Type} (intensity : α → Nat) (thr : Nat)
    (gen orig : List (List α)) (mask : List (List Bool)) : List (List α) :=
  List.zipWith (fun gr om => composeRow intensity thr gr om.1 om.2) gen
    (orig.zip mask)

/-! ### Sample values used to instantiate universally quantified theorems -/

/-- A batch snapshot as the UI would hold it right after a successful
cancel: status `"cancelled"`, progress already recorded. -/
def cancelledJob : BatchJobSnapshot :=
  { id := "batch-1", status := "cancelled", progress := 40, current := 2,
    total := 5, message := "Batch cancelled", errors := [] }

/-- A batch snapshot that finished with per-item failures. -/
def completedWithErrorsJob : BatchJobSnapshot :=
  { id := "batch-2", status := "completed-with-errors", progress := 100,
    current := 5, total := 5, message := "Batch complete",
    errors := ["page3.png: corrupt file"] }

/-- A colorization task as TaskContext tracks it. -/
def sampleTask : Task :=
  { id := "task-1", type := "colorization", status := "processing",
    title := "Colorize chapter 1", progress := 25, current := 1, total := 4,
    message := "Processing page 2", createdAt := "2026-01-01T00:00:00Z",
    completedAt := none, error := none, metadata := none }

/-- A second task with a different id, used as a frame bystander. -/
def otherTask : Task :=
  { id := "task-2", type := "download", status := "pending",
    title := "Download chapter 2", progress := 0, current := 0, total := 10,
    message := "", createdAt := "2026-01-01T00:05:00Z",
    completedAt := none, error := none, metadata := none }

/-- A loaded chapter used to instantiate the reader-invariant theorem. -/
def sampleLoaded (cid : String) : LoadedChapter :=
  { chapterId := cid, chapterName := "Chapter " ++ cid,
    pages := ["p1.png", "p2.png"], hasColored := false }

/-! ## Theorems -/

/-- **C4.** After `cancelBatch` succeeds, the tracked job snapshot has
status `"cancelled"` while every other field — id, progress, current,
total, message, errors — keeps the value it had before the cancel. -/
theorem cancelBatch_sets_only_status (j : BatchJobSnapshot) :
    (cancelSnapshot j).status = "cancelled" ∧
    (cancelSnapshot j).id = j.id ∧
    (cancelSnapshot j).progress = j.progress ∧
    (cancelSnapshot j).current = j.current ∧
    (cancelSnapshot j).total = j.total ∧
    (cancelSnapshot j).message = j.message ∧
    (cancelSnapshot j).errors = j.errors :=
  ⟨rfl, rfl, rfl, rfl, rfl, rfl, rfl⟩

/-- **C7.** Handling a progress event sets the progress-bar width to
exactly the event's percent (0 when absent) and the progress text to
`Processing: <filename> (<current>/<total>)`, and modifies no other
renderer state. -/
theorem updateProgress_sets_bar_and_text (d : ProgressEvent) (u : RendererState) :
    (updateProgress d u).progressBarWidth =
      (match d.percent with | some p => p | none => 0) ∧
    (updateProgress d u).progressText =
      "Processing: " ++ d.filename ++ " (" ++ toString d.current ++ "/"
        ++ toString d.total ++ ")" ∧
    (updateProgress d u).statusText = u.statusText ∧
    (updateProgress d u).resultsVisible = u.resultsVisible ∧
    (updateProgress d u).isProcessing = u.isProcessing := by
  refine ⟨?_, rfl, rfl, rfl, rfl⟩
  show jsOrZero d.percent = _
  cases d.percent with
  | none => rfl
  | some p =>
    by_cases hp : p = 0
    · simp [jsOrZero, hp]
    · simp [jsOrZero, hp]

/-- **C10.** Chapter-selection toggling is an involution: toggling the same
id twice restores the selection, and one toggle changes the membership of
the toggled id only (it flips that id, and leaves every other id's
membership unchanged). -/
theorem toggleChapter_involution (s : Finset String) (c : String) :
    toggleChapter (toggleChapter s c) c = s ∧
    (c ∈ toggleChapter s c ↔ c ∉ s) ∧
    (∀ d : String, d ≠ c → (d ∈ toggleChapter s c ↔ d ∈ s)) := by
  refine ⟨?_, ?_, ?_⟩
  · by_cases h : c ∈ s
    · have h1 : toggleChapter s c = s.erase c := if_pos h
      rw [h1]
      have h2 : c ∉ s.erase c := Finset.not_mem_erase c s
      show (if c ∈ s.erase c then _ else _) = s
      rw [if_neg h2, Finset.insert_erase h]
    · have h1 : toggleChapter s c = insert c s := if_neg h
      rw [h1]
      have h2 : c ∈ insert c s := Finset.mem_insert_self c s
      show (if c ∈ insert c s then _ else _) = s
      rw [if_pos h2, Finset.erase_insert h]
  · by_cases h : c ∈ s
    · simp [toggleChapter, h]
    · simp [toggleChapter, h]
  · intro d hd
    by_cases h : c ∈ s
    · simp [toggleChapter, h, Finset.mem_erase, hd]
    · simp [toggleChapter, h, Finset.mem_insert, hd]

/-- Witness for C10 at a concrete selection and ids. -/
theorem toggleChapter_involution_witness :
    ("ch-2" : String) ≠ "ch-1" ∧
    (("ch-2" : String) ∈ toggleChapter {"ch-2"} "ch-1" ↔
      ("ch-2" : String) ∈ ({"ch-2"} : Finset String)) :=
  ⟨by decide, (toggleChapter_involution {"ch-2"} "ch-1").2.2 "ch-2" (by decide)⟩

/-- **C2, counterexample.** The claim requires every tracked batch snapshot's
status to lie in the six-value enum; but the snapshot `startBatch` installs
(and delivers to the rendering code) has the status `"created"`, outside the
enum — and in the embedded `BatchJob` interface its `errors` field is a list
of bare strings, not `{item, message}` records. -/
theorem batch_snapshot_shape_counterexample :
    (initialSnapshot "batch-1" 3).status ∉ specStatuses ∧
    (initialSnapshot "batch-1" 3).errors = ([] : List String) := by
  exact ⟨by decide, rfl⟩

/-- **C2, amended.** Every snapshot the BatchProcessing UI can come to track
— the `startBatch` initial snapshot followed by any number of local cancels
and backend polls — has a status in the spec enum extended with the UI-local
value `"created"`; its `errors` field is a list of bare message strings (the
embedded type of the `BatchJob` interface). -/
theorem batch_snapshot_status_invariant {j : BatchJobSnapshot}
    (h : SnapshotReachable j) : j.status ∈ "created" :: specStatuses := by
  induction h with
  | init b t => simp [initialSnapshot]
  | step _ hs _ =>
    cases hs with
    | cancel => simp [cancelSnapshot, specStatuses]
    | poll _ hmem => exact List.mem_cons_of_mem _ hmem

/-- Witness for the amended C2 at a concrete reachable snapshot. -/
theorem batch_snapshot_status_invariant_witness :
    (initialSnapshot "batch-1" 3).status ∈ "created" :: specStatuses :=
  batch_snapshot_status_invariant (SnapshotReachable.init "batch-1" 3)

/-- **C3, counterexample.** `"cancelled"` is one of the four terminal
statuses, yet the BatchProcessing polling guard does not stop there: the
`useEffect` only returns early for `"completed"` and `"failed"`, so with a
cancelled job another `getBatchStatus` request is still issued. -/
theorem batch_poll_terminal_counterexample :
    cancelledJob.status ∈ terminalStatuses ∧
    pollGuardStops (some cancelledJob) = false := by
  exact ⟨by decide, by decide⟩

/-- **C3, amended.** Every status-fetch failure is caught (a failed tick
leaves the tracked snapshot unchanged instead of propagating), and the
BatchProcessing poller stops for `"completed"` and `"failed"` — but keeps
issuing status requests for `"cancelled"` and `"completed-with-errors"`;
the TaskContext poller polls only `"pending"`/`"processing"` tasks, hence
stops for all four terminal statuses. -/
theorem batch_poll_guard_spec :
    (∀ j : BatchJobSnapshot, j.status = "completed" ∨ j.status = "failed" →
      pollGuardStops (some j) = true) ∧
    (∀ j : BatchJobSnapshot,
      j.status = "cancelled" ∨ j.status = "completed-with-errors" →
      pollGuardStops (some j) = false) ∧
    (∀ (j : BatchJobSnapshot) (e : String), pollTick j (Except.error e) = j) ∧
    (∀ t : Task, t.status ∈ terminalStatuses → isActiveTask t = false) := by
  refine ⟨?_, ?_, ?_, ?_⟩
  · rintro j (h | h) <;> simp [pollGuardStops, h]
  · rintro j (h | h) <;> simp [pollGuardStops, h]
  · intro j e
    rfl
  · intro t ht
    simp only [terminalStatuses, List.mem_cons, List.mem_singleton,
      List.not_mem_nil, or_false] at ht
    rcases ht with h | h | h | h <;> simp [isActiveTask, h]

/-- Witness for the amended C3 at concrete snapshots and a concrete task. -/
theorem batch_poll_guard_spec_witness :
    pollGuardStops (some (cancelSnapshot cancelledJob)) = false ∧
    pollTick cancelledJob (Except.error "network error") = cancelledJob ∧
    isActiveTask (mergeTask sampleTask { status := some "cancelled" }) = false :=
  ⟨batch_poll_guard_spec.2.1 (cancelSnapshot cancelledJob) (Or.inl rfl),
   batch_poll_guard_spec.2.2.1 cancelledJob "network error",
   batch_poll_guard_spec.2.2.2 (mergeTask sampleTask { status := some "cancelled" })
     (by decide)⟩

/-- **C9.** `updateTask id u` maps exactly the tasks whose id matches to the
spread-merge of their old fields with the update, leaves every other task
unchanged, and preserves length and order (pointwise characterization);
`removeTask id` keeps the surviving tasks in order (a sublist) and a task
survives iff its id differs. -/
theorem updateTask_removeTask_spec (i : String) (u : TaskUpdate)
    (tasks : List Task) :
    (updateTask i u tasks).length = tasks.length ∧
    (∀ (n : Nat) (t : Task), tasks[n]? = some t →
      (updateTask i u tasks)[n]? =
        some (if t.id = i then mergeTask t u else t)) ∧
    (removeTask i tasks).Sublist tasks ∧
    (∀ t : Task, t ∈ removeTask i tasks ↔ t ∈ tasks ∧ t.id ≠ i) := by
  refine ⟨List.length_map _ _, ?_, List.filter_sublist _, ?_⟩
  · intro n t ht
    simp [updateTask, List.getElem?_map, ht, beq_iff_eq]
  · intro t
    simp [removeTask, List.mem_filter, beq_iff_eq]

/-- Witness for C9 at a concrete two-task list (updating the first task's
status and leaving the bystander untouched). -/
theorem updateTask_removeTask_spec_witness :
    ([sampleTask, otherTask][0]? = some sampleTask) ∧
    (updateTask "task-1" { status := some "completed" } [sampleTask, otherTask])[0]? =
      some (if sampleTask.id = "task-1"
        then mergeTask sampleTask { status := some "completed" }
        else sampleTask) :=
  ⟨rfl, (updateTask_removeTask_spec "task-1" { status := some "completed" }
    [sampleTask, otherTask]).2.1 0 sampleTask rfl⟩

/-- **C5.** In every reachable state of either component's settings
controls, the ink threshold stays an integer in `[40, 120]` (hence within
the request schema's `[0, 255]`) and the max side stays in `[512, 1536]`
and a multiple of the engine granularity `32`. -/
theorem request_settings_invariant (s : ColorizeSettings)
    (h : BatchSettingsReachable s ∨ SingleSettingsReachable s) :
    40 ≤ s.inkThreshold ∧ s.inkThreshold ≤ 120 ∧ s.inkThreshold ≤ 255 ∧
      512 ≤ s.maxSide ∧ s.maxSide ≤ 1536 ∧ s.maxSide % 32 = 0 := by
  rcases h with h | h
  · induction h with
    | init =>
      exact ⟨by decide, by decide, by decide, by decide, by decide, by decide⟩
    | @setInk s v _ hv ih =>
      obtain ⟨h1, h2, _⟩ := hv
      refine ⟨h1, h2, ?_, ih.2.2.2.1, ih.2.2.2.2.1, ih.2.2.2.2.2⟩
      show v ≤ 255
      omega
    | @setMax s v _ hv ih =>
      obtain ⟨h1, h2, h3⟩ := hv
      refine ⟨ih.1, ih.2.1, ih.2.2.1, h1, h2, ?_⟩
      show v % 32 = 0
      omega
  · induction h with
    | init =>
      exact ⟨by decide, by decide, by decide, by decide, by decide, by decide⟩
    | @setInk s v _ hv ih =>
      obtain ⟨h1, h2, _⟩ := hv
      refine ⟨h1, h2, ?_, ih.2.2.2.1, ih.2.2.2.2.1, ih.2.2.2.2.2⟩
      show v ≤ 255
      omega
    | @setMax s v _ hv ih =>
      obtain ⟨h1, h2, h3⟩ := hv
      refine ⟨ih.1, ih.2.1, ih.2.2.1, h1, h2, ?_⟩
      show v % 32 = 0
      omega

/-- Witness for C5 at the initial settings state of each component. -/
theorem request_settings_invariant_witness :
    40 ≤ initialSettings.inkThreshold ∧
      initialSettings.inkThreshold ≤ 120 ∧
      initialSettings.inkThreshold ≤ 255 ∧
      512 ≤ initialSettings.maxSide ∧ initialSettings.maxSide ≤ 1536 ∧
      initialSettings.maxSide % 32 = 0 :=
  request_settings_invariant initialSettings
    (Or.inl BatchSettingsReachable.init)

/-- Replacing the character predicate by one agreeing on all of the list's
elements does not change `revStripAfter`. -/
theorem revStripAfter_congr (p q : Char → Bool) (l : List Char)
    (h : ∀ c ∈ l, p c = q c) : revStripAfter p l = revStripAfter q l := by
  induction l with
  | nil => rfl
  | cons c rest ih =>
    unfold revStripAfter
    rw [h c (List.mem_cons_self _ _),
      ih fun d hd => h d (List.mem_cons_of_mem _ hd)]

/-- Replacing the character predicate by one agreeing on all of the list's
elements does not change `revStrip`. -/
theorem revStrip_congr (p q : Char → Bool) (l : List Char)
    (h : ∀ c ∈ l, p c = q c) : revStrip p l = revStrip q l := by
  cases l with
  | nil => rfl
  | cons c rest =>
    show (if p c then revStripAfter p rest else none) =
      (if q c then revStripAfter q rest else none)
    rw [h c (List.mem_cons_self _ _),
      revStripAfter_congr p q rest fun d hd => h d (List.mem_cons_of_mem _ hd)]

/-- **C6.** For every input filename without a path separator, the download
name `handleDownload` offers equals the original stem — the name with its
final dot-extension removed, the name unchanged when it has no extension —
with the fixed suffix `_colored.png` appended. -/
theorem downloadName_matches_stem (f : List Char) (h : ('/' : Char) ∉ f) :
    downloadName f = specStem f ++ ("_colored.png".toList) := by
  unfold downloadName jsStripExt specStem
  rw [revStrip_congr extChar (fun c => !(c == '.')) f.reverse ?_]
  intro c hc
  have hne : c ≠ '/' := by
    intro he
    exact h (by rw [← he]; exact List.mem_reverse.mp hc)
  have h2 : (c == '/') = false := beq_eq_false_iff_ne.mpr hne
  simp [extChar, h2]

/-- Witness for C6 at a concrete filename. -/
theorem downloadName_matches_stem_witness :
    ('/' : Char) ∉ "page1.jpg".toList ∧
      downloadName "page1.jpg".toList =
        specStem "page1.jpg".toList ++ ("_colored.png".toList) :=
  ⟨by decide, downloadName_matches_stem _ (by decide)⟩

/-- The sort used by the reader permutes its input. -/
theorem sortLoaded_perm (ids : List String) (l : List LoadedChapter) :
    (sortLoaded ids l).Perm l :=
  List.mergeSort_perm l _

/-- The sort used by the reader orders the list by chapter index. -/
theorem sortLoaded_ordered (ids : List String) (l : List LoadedChapter) :
    OrderedByChapters ids (sortLoaded ids l) := by
  have h := @List.sorted_mergeSort _ (chapterLe ids)
    (fun a b c hab hbc => by
      simp only [chapterLe, decide_eq_true_eq] at *
      exact le_trans hab hbc)
    (fun a b => by
      simp only [chapterLe, Bool.or_eq_true, decide_eq_true_eq]
      exact le_total _ _)
    l
  exact h.imp fun hab => by simpa [chapterLe] using hab

/-- Sorting preserves distinctness of chapter ids. -/
theorem sortLoaded_distinct (ids : List String) (l : List LoadedChapter)
    (h : DistinctIds l) : DistinctIds (sortLoaded ids l) :=
  ((sortLoaded_perm ids l).pairwise_iff fun hab => Ne.symm hab).mpr h

/-- Appending a chapter whose id is fresh preserves distinctness. -/
theorem distinct_append_single (prev : List LoadedChapter) (x : LoadedChapter)
    (h : DistinctIds prev) (hx : ∀ a ∈ prev, a.chapterId ≠ x.chapterId) :
    DistinctIds (prev ++ [x]) := by
  rw [DistinctIds, List.pairwise_append]
  exact ⟨h, List.pairwise_singleton _ _, fun a ha b hb => by
    rw [List.mem_singleton] at hb; subst hb; exact hx a ha⟩

/-- The `loadChapter` list update preserves the reader invariant. -/
theorem loadChapterUpdate_inv (ids : List String) (prev : List LoadedChapter)
    (nc : LoadedChapter) (hd : DistinctIds prev)
    (ho : OrderedByChapters ids prev) :
    DistinctIds (loadChapterUpdate ids prev nc) ∧
      OrderedByChapters ids (loadChapterUpdate ids prev nc) := by
  unfold loadChapterUpdate
  by_cases hc : prev.any (fun ch => ch.chapterId == nc.chapterId)
  · rw [if_pos hc]; exact ⟨hd, ho⟩
  · rw [if_neg hc]
    refine ⟨sortLoaded_distinct _ _ ?_, sortLoaded_ordered _ _⟩
    refine distinct_append_single _ _ hd fun a ha => ?_
    intro he
    exact hc (List.any_eq_true.mpr ⟨a, ha, by simp [he]⟩)

/-- The `toggleVersion` fold maintains distinctness and ordering of the
accumulator, provided the pending chapters have distinct ids disjoint from
the accumulator's. -/
theorem toggleFold_inv (ids : List String)
    (reload : LoadedChapter → Option (List String)) :
    ∀ (todo acc : List LoadedChapter),
      DistinctIds acc → OrderedByChapters ids acc →
      todo.Pairwise (fun a b => a.chapterId ≠ b.chapterId) →
      (∀ a ∈ acc, ∀ b ∈ todo, a.chapterId ≠ b.chapterId) →
      DistinctIds (todo.foldl
          (fun prev ch =>
            match reload ch with
            | some ps => sortLoaded ids (prev ++ [{ ch with pages := ps }])
            | none => prev) acc) ∧
        OrderedByChapters ids (todo.foldl
          (fun prev ch =>
            match reload ch with
            | some ps => sortLoaded ids (prev ++ [{ ch with pages := ps }])
            | none => prev) acc) := by
  intro todo
  induction todo with
  | nil => intro acc hd ho _ _; exact ⟨hd, ho⟩
  | cons ch rest ih =>
    intro acc hd ho hpw hdisj
    rw [List.pairwise_cons] at hpw
    rw [List.foldl_cons]
    cases hre : reload ch with
    | none =>
      simp only [hre]
      exact ih acc hd ho hpw.2
        (fun a ha b hb => hdisj a ha b (List.mem_cons_of_mem _ hb))
    | some ps =>
      simp only [hre]
      set ch' : LoadedChapter := { ch with pages := ps } with hch
      have hid : ch'.chapterId = ch.chapterId := rfl
      have hd' : DistinctIds (sortLoaded ids (acc ++ [ch'])) := by
        refine sortLoaded_distinct _ _ (distinct_append_single _ _ hd ?_)
        intro a ha
        rw [hid]
        exact hdisj a ha ch (List.mem_cons_self _ _)
      have ho' : OrderedByChapters ids (sortLoaded ids (acc ++ [ch'])) :=
        sortLoaded_ordered _ _
      refine ih _ hd' ho' hpw.2 ?_
      intro a ha b hb
      have hmem : a ∈ acc ++ [ch'] := ((sortLoaded_perm _ _).mem_iff).mp ha
      rw [List.mem_append, List.mem_singleton] at hmem
      rcases hmem with h | h
      · exact hdisj a h b (List.mem_cons_of_mem _ hb)
      · subst h; rw [hid]; exact hpw.1 b hb

/-- The `toggleVersion` rebuild establishes the reader invariant from a
distinct loaded list. -/
theorem toggleVersionUpdate_inv (ids : List String)
    (old : List LoadedChapter) (reload : LoadedChapter → Option (List String))
    (hd : DistinctIds old) :
    DistinctIds (toggleVersionUpdate ids old reload) ∧
      OrderedByChapters ids (toggleVersionUpdate ids old reload) :=
  toggleFold_inv ids reload old [] List.Pairwise.nil List.Pairwise.nil
    hd (by intro a ha; cases ha)

/-- **C8.** After every `loadChapter` list update (starting from a list
satisfying the invariant) and after every `toggleVersion` rebuild (starting
from a distinct loaded list), the `loadedChapters` list has pairwise
distinct chapter ids and is ordered by the chapters' position in the
chapter list. -/
theorem loadedChapters_invariant :
    (∀ (ids : List String) (prev : List LoadedChapter) (nc : LoadedChapter),
      DistinctIds prev → OrderedByChapters ids prev →
      DistinctIds (loadChapterUpdate ids prev nc) ∧
        OrderedByChapters ids (loadChapterUpdate ids prev nc)) ∧
    (∀ (ids : List String) (old : List LoadedChapter)
        (reload : LoadedChapter → Option (List String)),
      DistinctIds old →
      DistinctIds (toggleVersionUpdate ids old reload) ∧
        OrderedByChapters ids (toggleVersionUpdate ids old reload)) :=
  ⟨loadChapterUpdate_inv, toggleVersionUpdate_inv⟩

/-- Witness for C8: loading chapter c2 into a reader that has chapter c1.

The hypotheses are evaluated on concrete lists. -/
theorem loadedChapters_invariant_witness :
    DistinctIds (loadChapterUpdate ["c1", "c2"] [sampleLoaded "c1"]
        (sampleLoaded "c2")) ∧
      OrderedByChapters ["c1", "c2"]
        (loadChapterUpdate ["c1", "c2"] [sampleLoaded "c1"]
          (sampleLoaded "c2")) :=
  loadedChapters_invariant.1 ["c1", "c2"] [sampleLoaded "c1"]
    (sampleLoaded "c2") (by unfold DistinctIds; decide)
    (by unfold OrderedByChapters; decide)

/-- **C1.** (Compose rule modelled from the spec; the Python core is not in
the provided sources.)  For every generated image, original image, mask of
matching dimensions. and ink threshold in `[0, 255]`: at each pixel, if the
original pixel's intensity is at or below the threshold or the mask marks
the pixel protected, the composed output equals the original pixel exactly,
and otherwise it equals the generated pixel. -/
theorem compose_preserves_ink_and_mask {α : Type} (intensity : α → Nat)
    (thr : Nat) (gen orig : List (List α)) (mask : List (List Bool))
    (i j : Nat) (grow orow : List α) (mrow : List Bool) (g o : α) (m : Bool)
    (hthr : thr ≤ 255)
    (hgen : gen[i]? = some grow) (horig : orig[i]? = some orow)
    (hmask : mask[i]? = some mrow)
    (hg : grow[j]? = some g) (ho : orow[j]? = some o) (hm : mrow[j]? = some m) :
    ((compose intensity thr gen orig mask)[i]?.bind fun row => row[j]?) =
      some (if intensity o ≤ thr ∨ m = true then o else g) := by
  have hzip : (orig.zip mask)[i]? = some (orow, mrow) := by
    simp [List.getElem?_zip_eq_some, horig, hmask]
  have hzip2 : (orow.zip mrow)[j]? = some (o, m) := by
    simp [List.getElem?_zip_eq_some, ho, hm]
  simp [compose, composeRow, List.getElem?_zipWith, hgen, hzip, hzip2, hg,
    composePixel]

/-- Witness for C1 on a concrete 1-by-2 image: the first pixel is dark ink
(intensity 50 at threshold 100) and stays original; the second is light
(intensity 150) and unprotected, and takes the generated pixel. -/
theorem compose_preserves_ink_and_mask_witness :
    (100 : Nat) ≤ 255 ∧
      ((compose (fun p => p) 100 [[200, 210]] [[50, 150]]
          [[false, false]])[0]?.bind fun row => row[1]?) =
        some (if (150 : Nat) ≤ 100 ∨ false = true then 150 else 210) :=
  ⟨by decide,
    compose_preserves_ink_and_mask (fun p => p) 100 [[200, 210]] [[50, 150]]
      [[false, false]] 0 1 [200, 210] [50, 150] [false, false] 210 150 false
      (by decide) rfl rfl rfl rfl rfl rfl⟩

end MangaColorer
